import Mathlib

/-
Shallow embedding of the go-multi-miner core (registry, manager, connection
pool) for verification of its specification.

Modelling conventions:
- A Go `Session` is an abstract handle; we represent it by a `Nat`. The
  driver's `Open` is modelled as producing the pool's `nextSess` counter value
  (the Driver contract states `Open` constructs a new live session), or an
  error supplied by the environment via an `openErr` parameter.
- Go `time.Time` / `time.Duration` values are modelled as `Int` (Go stores
  them as signed integer nanoseconds); `now.Sub(createdAt) < idleTime`
  becomes `now - createdAt < idleTime` over `Int`.
- Go maps keyed by sessions become functions `Nat → Option _`; the top-level
  `pools` map becomes an association list (insertion order models Go's map
  contents; lookups key on the string id).
- Operations additionally return ghost outputs that record observable events:
  the number of `Driver.Open` invocations, the list of sessions on which
  `Close` was invoked, and (for `WithSession`) the list of sessions the
  callback was invoked on. These outputs mirror the call sites in the Go
  code and let us state claims about invocation counts.
-/

namespace MultiMiner

/-- Structured errors of the multiminer package (`MultiMinerError` values and
the opaque errors drivers may produce). -/
inductive MMErr where
  | notFound
  | driverNotFound
  | deviceError (message details : String)
  | driverFailure (tag : Nat)
  deriving DecidableEq, Repr

/-- Endpoint represents how to reach a device. -/
structure Endpoint where
  address : String
  deriving DecidableEq, Repr

/-- Driver, reduced to the surface the core consumes: a name and the `Detect`
probe. `detect ep` returns the Go pair `(ok, err)`. `Open` is modelled inside
the pool (fresh-handle counter / `openErr` parameter). -/
structure Driver where
  name : String
  detect : Endpoint → Bool × Option MMErr

/-- Device represents a tracked miner. -/
structure Device where
  id : String
  endpoint : Endpoint
  driver : Driver
  driverName : String

/-- DevicePool holds connections for a single device. `nextSess` is the
model's fresh-session counter standing in for the driver's `Open`. -/
structure DevicePool where
  device : Device
  idle : List Nat
  active : Finset Nat
  createdAt : Nat → Option Int
  maxIdle : Nat
  maxOpen : Nat
  idleTime : Int
  nextSess : Nat

/-- getSession gets a session from the device pool. Returns the Go result,
the updated pool, and the number of `Driver.Open` invocations performed. -/
def DevicePool.getSession (dp : DevicePool) (now : Int) (openErr : Option MMErr) :
    Except MMErr Nat × DevicePool × Nat :=
  if h : dp.idle ≠ [] then
    let sess := dp.idle.getLast h
    (Except.ok sess,
      { dp with idle := dp.idle.dropLast, active := insert sess dp.active }, 0)
  else if dp.maxOpen ≤ dp.active.card then
    (Except.error (MMErr.deviceError "connection pool exhausted" "too many active connections"),
      dp, 0)
  else
    match openErr with
    | some e => (Except.error e, dp, 1)
    | none =>
      (Except.ok dp.nextSess,
        { dp with
            active := insert dp.nextSess dp.active,
            createdAt := Function.update dp.createdAt dp.nextSess (some now),
            nextSess := dp.nextSess + 1 }, 1)

/-- returnSession returns a session to the device pool. Second component:
the sessions on which `Close` was invoked. -/
def DevicePool.returnSession (dp : DevicePool) (sess : Nat) : DevicePool × List Nat :=
  let dp1 := { dp with active := dp.active.erase sess }
  if dp1.idle.length < dp1.maxIdle then
    ({ dp1 with idle := dp1.idle ++ [sess] }, [])
  else
    ({ dp1 with createdAt := Function.update dp1.createdAt sess none }, [sess])

/-- cleanLoop is the loop body of `cleanExpired`: walks the idle list in
order threading the `createdAt` map, producing the kept (valid) idle list,
the final `createdAt` map, and the sessions closed. -/
def cleanLoop (idleTime now : Int) :
    List Nat → (Nat → Option Int) → List Nat × (Nat → Option Int) × List Nat
  | [], ca => ([], ca, [])
  | sess :: rest, ca =>
    match ca sess with
    | some created =>
      if now - created < idleTime then
        let r := cleanLoop idleTime now rest ca
        (sess :: r.1, r.2.1, r.2.2)
      else
        let r := cleanLoop idleTime now rest (Function.update ca sess none)
        (r.1, r.2.1, sess :: r.2.2)
    | none =>
      let r := cleanLoop idleTime now rest ca
      (r.1, r.2.1, sess :: r.2.2)

/-- cleanExpired removes expired idle connections. Second component: the
sessions on which `Close` was invoked. -/
def DevicePool.cleanExpired (dp : DevicePool) (now : Int) : DevicePool × List Nat :=
  let r := cleanLoop dp.idleTime now dp.idle dp.createdAt
  ({ dp with idle := r.1, createdAt := r.2.1 }, r.2.2)

/-- closeAll closes all sessions in the pool. Second component: the sessions
on which `Close` was invoked (idle in order, then the active set, enumerated
in ascending order, standing in for Go's unspecified map iteration order). -/
def DevicePool.closeAll (dp : DevicePool) : DevicePool × List Nat :=
  ({ dp with idle := [], active := ∅, createdAt := fun _ => none },
    dp.idle ++ dp.active.sort (· ≤ ·))

/-- PoolStats contains statistics about a device pool. -/
structure PoolStats where
  activeConnections : Nat
  idleConnections : Nat
  maxOpen : Nat
  maxIdle : Nat
  deriving DecidableEq, Repr

/-- statsOf is the per-device entry built by `ConnectionPool.Stats`. -/
def DevicePool.statsOf (dp : DevicePool) : PoolStats :=
  { activeConnections := dp.active.card
    idleConnections := dp.idle.length
    maxOpen := dp.maxOpen
    maxIdle := dp.maxIdle }

/-- ConnectionPool manages session connections to devices. -/
structure ConnectionPool where
  pools : List (String × DevicePool)
  maxIdle : Nat
  maxOpen : Nat
  idleTime : Int

/-- poolsFind is lookup in the `pools` map. -/
def poolsFind : List (String × DevicePool) → String → Option DevicePool
  | [], _ => none
  | (k, v) :: rest, id => if k = id then some v else poolsFind rest id

/-- poolsSet is insertion/overwrite in the `pools` map. -/
def poolsSet : List (String × DevicePool) → String → DevicePool → List (String × DevicePool)
  | [], id, dp => [(id, dp)]
  | (k, v) :: rest, id, dp =>
    if k = id then (id, dp) :: rest else (k, v) :: poolsSet rest id dp

/-- newDevicePool is the sub-pool `GetSession` creates lazily, capturing the
shared limits at creation time. -/
def ConnectionPool.newDevicePool (p : ConnectionPool) (device : Device) : DevicePool :=
  { device := device
    idle := []
    active := ∅
    createdAt := fun _ => none
    maxIdle := p.maxIdle
    maxOpen := p.maxOpen
    idleTime := p.idleTime
    nextSess := 0 }

/-- GetSession retrieves a session from the pool or creates a new one,
lazily creating the device's sub-pool. -/
def ConnectionPool.getSession (p : ConnectionPool) (id : String) (device : Device)
    (now : Int) (openErr : Option MMErr) : Except MMErr Nat × ConnectionPool × Nat :=
  let dp :=
    match poolsFind p.pools id with
    | some dp => dp
    | none => p.newDevicePool device
  let r := dp.getSession now openErr
  (r.1, { p with pools := poolsSet p.pools id r.2.1 }, r.2.2)

/-- ReturnSession returns a session to the pool; if the sub-pool no longer
exists the session is closed. Second component: sessions closed. -/
def ConnectionPool.returnSession (p : ConnectionPool) (id : String) (sess : Nat) :
    ConnectionPool × List Nat :=
  match poolsFind p.pools id with
  | some dp =>
    let r := dp.returnSession sess
    ({ p with pools := poolsSet p.pools id r.1 }, r.2)
  | none => (p, [sess])

/-- CleanUp applies `cleanExpired` to every device sub-pool. -/
def ConnectionPool.cleanUp (p : ConnectionPool) (now : Int) : ConnectionPool × List Nat :=
  ({ p with pools := p.pools.map fun kv => (kv.1, (kv.2.cleanExpired now).1) },
    (p.pools.map fun kv => (kv.2.cleanExpired now).2).flatten)

/-- Close closes all connections and clears the pools. Second component:
sessions closed. -/
def ConnectionPool.close (p : ConnectionPool) : ConnectionPool × List Nat :=
  ({ p with pools := [] },
    (p.pools.map fun kv => kv.2.closeAll.2).flatten)

/-- Stats returns pool statistics, one entry per tracked device. -/
def ConnectionPool.stats (p : ConnectionPool) : List (String × PoolStats) :=
  p.pools.map fun kv => (kv.1, kv.2.statsOf)

/-- statsLookup reads a stats map entry the way Go map indexing does: an
absent key yields the zero value. -/
def statsLookup : List (String × PoolStats) → String → PoolStats
  | [], _ => { activeConnections := 0, idleConnections := 0, maxOpen := 0, maxIdle := 0 }
  | (k, v) :: rest, id => if k = id then v else statsLookup rest id

/-- Registry stores available drivers in registration order. -/
structure Registry where
  drivers : List Driver

/-- detectLoop is the body of `Registry.Detect`: probes drivers in order,
also returning the list of drivers whose `Detect` was invoked, in order. -/
def detectLoop (ep : Endpoint) : List Driver → Except MMErr Driver × List Driver
  | [] => (Except.error MMErr.driverNotFound, [])
  | d :: rest =>
    let r := d.detect ep
    match r.2 with
    | some e => (Except.error e, [d])
    | none =>
      if r.1 then (Except.ok d, [d])
      else
        let t := detectLoop ep rest
        (t.1, d :: t.2)

/-- Detect finds the first driver that claims the endpoint. -/
def Registry.detect (r : Registry) (ep : Endpoint) : Except MMErr Driver × List Driver :=
  detectLoop ep r.drivers

/-- Manager tracks devices and provides operations across them. -/
structure Manager where
  reg : Registry
  dev : String → Option Device
  pool : ConnectionPool

/-- AddOrDetect registers a device, auto-detecting the driver if needed. -/
def Manager.addOrDetect (m : Manager) (id : String) (ep : Endpoint) (d : Option Driver) :
    Option MMErr × Manager :=
  match d with
  | some drv =>
    (none, { m with dev := fun k =>
      if k = id then some ⟨id, ep, drv, drv.name⟩ else m.dev k })
  | none =>
    match (m.reg.detect ep).1 with
    | Except.error e => (some e, m)
    | Except.ok drv =>
      (none, { m with dev := fun k =>
        if k = id then some ⟨id, ep, drv, drv.name⟩ else m.dev k })

/-- WithSession opens a session for a device and runs `fn` using the
connection pool. Returns the Go result, the updated manager, and the list of
sessions `fn` was invoked on. -/
def Manager.withSession (m : Manager) (id : String) (fn : Nat → Option MMErr)
    (now : Int) (openErr : Option MMErr) : Option MMErr × Manager × List Nat :=
  match m.dev id with
  | none => (some MMErr.notFound, m, [])
  | some d =>
    let g := m.pool.getSession id d now openErr
    match g.1 with
    | Except.error e => (some e, { m with pool := g.2.1 }, [])
    | Except.ok sess =>
      let res := fn sess
      let r := g.2.1.returnSession id sess
      (res, { m with pool := r.1 }, [sess])

/-- Close gracefully shuts down the manager and connection pool. Third
component: sessions on which `Close` was invoked. -/
def Manager.close (m : Manager) : Option MMErr × Manager × List Nat :=
  let r := m.pool.close
  (none, { m with pool := r.1 }, r.2)

/-- initPool is a freshly created device sub-pool with the given limits. -/
def DevicePool.init (device : Device) (maxIdle maxOpen : Nat) (idleTime : Int) : DevicePool :=
  { device := device
    idle := []
    active := ∅
    createdAt := fun _ => none
    maxIdle := maxIdle
    maxOpen := maxOpen
    idleTime := idleTime
    nextSess := 0 }

/-- PoolStep is one pool operation on a device sub-pool: a `GetSession`
(with any environment outcome for `Open`), a `ReturnSession` of a
checked-out session, a `cleanExpired` pass, or a `closeAll`. -/
inductive PoolStep : DevicePool → DevicePool → Prop where
  | get (dp : DevicePool) (now : Int) (openErr : Option MMErr) :
      PoolStep dp (dp.getSession now openErr).2.1
  | ret (dp : DevicePool) (sess : Nat) (h : sess ∈ dp.active) :
      PoolStep dp (dp.returnSession sess).1
  | clean (dp : DevicePool) (now : Int) :
      PoolStep dp (dp.cleanExpired now).1
  | close (dp : DevicePool) :
      PoolStep dp dp.closeAll.1

/-- PoolReachable dp means dp arises from a fresh sub-pool by some sequence
of pool operations. -/
def PoolReachable (device : Device) (maxIdle maxOpen : Nat) (idleTime : Int)
    (dp : DevicePool) : Prop :=
  Relation.ReflTransGen PoolStep (DevicePool.init device maxIdle maxOpen idleTime) dp

/-- PoolInv is the sub-pool bookkeeping invariant: the idle list has no
duplicates, idle and active are disjoint, the total pooled-session count is
bounded by maxOpen, and the idle list is bounded by maxIdle. -/
def PoolInv (dp : DevicePool) : Prop :=
  dp.idle.Nodup ∧ (∀ s ∈ dp.idle, s ∉ dp.active) ∧
    dp.active.card + dp.idle.length ≤ dp.maxOpen ∧ dp.idle.length ≤ dp.maxIdle

/-- expireKeep is the retention predicate of `cleanExpired`: a session is
kept iff it has a recorded creation time and its age is below the TTL. -/
def expireKeep (idleTime now : Int) (ca : Nat → Option Int) (s : Nat) : Bool :=
  match ca s with
  | some c => decide (now - c < idleTime)
  | none => false

/-! Helper lemmas about the detection loop. -/

theorem detectLoop_skip (ep : Endpoint) (l : List Driver) (a : Driver)
    (ha : a.detect ep = (false, none)) :
    detectLoop ep (a :: l) = ((detectLoop ep l).1, a :: (detectLoop ep l).2) := by
  simp [detectLoop, ha]

theorem detectLoop_nomatch (ep : Endpoint) (l : List Driver)
    (h : ∀ d ∈ l, d.detect ep = (false, none)) :
    (detectLoop ep l).1 = Except.error MMErr.driverNotFound := by
  induction l with
  | nil => simp [detectLoop]
  | cons a rest ih =>
    rw [detectLoop_skip ep rest a (h a (List.mem_cons_self a rest))]
    exact ih fun d hd => h d (List.mem_cons_of_mem a hd)

/-- C3: Registry.Detect returns the first driver in registration order whose
Detect returns (true, nil), given every earlier driver returned (false, nil),
probing exactly the earlier drivers and the winner in order; if every
registered driver returns (false, nil), it returns a driver-not-found
error. -/
theorem Registry.detect_first_match :
    (∀ (l₁ l₂ : List Driver) (d : Driver) (ep : Endpoint),
      (∀ d₀ ∈ l₁, d₀.detect ep = (false, none)) →
      d.detect ep = (true, none) →
      Registry.detect ⟨l₁ ++ d :: l₂⟩ ep = (Except.ok d, l₁ ++ [d])) ∧
    (∀ (r : Registry) (ep : Endpoint),
      (∀ d₀ ∈ r.drivers, d₀.detect ep = (false, none)) →
      (r.detect ep).1 = Except.error MMErr.driverNotFound) := by
  constructor
  · intro l₁ l₂ d ep h₁ hd
    induction l₁ with
    | nil => simp [Registry.detect, detectLoop, hd]
    | cons a rest ih =>
      have ha : a.detect ep = (false, none) := h₁ a (List.mem_cons_self a rest)
      have hrest : ∀ d₀ ∈ rest, d₀.detect ep = (false, none) :=
        fun d₀ hd₀ => h₁ d₀ (List.mem_cons_of_mem a hd₀)
      have := ih hrest
      simp only [Registry.detect] at this ⊢
      rw [List.cons_append, detectLoop_skip ep (rest ++ d :: l₂) a ha, this]
      simp
  · intro r ep h
    exact detectLoop_nomatch ep r.drivers h

/-- C4: if a driver's Detect returns a non-nil error and every earlier
driver returned (false, nil), Registry.Detect returns exactly that error,
having probed only the earlier drivers and the failing one — no
later-registered driver is probed. -/
theorem Registry.detect_error_shortcircuit
    (l₁ l₂ : List Driver) (d : Driver) (ep : Endpoint) (b : Bool) (e : MMErr)
    (h₁ : ∀ d₀ ∈ l₁, d₀.detect ep = (false, none))
    (hd : d.detect ep = (b, some e)) :
    Registry.detect ⟨l₁ ++ d :: l₂⟩ ep = (Except.error e, l₁ ++ [d]) := by
  induction l₁ with
  | nil => simp [Registry.detect, detectLoop, hd]
  | cons a rest ih =>
    have ha : a.detect ep = (false, none) := h₁ a (List.mem_cons_self a rest)
    have hrest : ∀ d₀ ∈ rest, d₀.detect ep = (false, none) :=
      fun d₀ hd₀ => h₁ d₀ (List.mem_cons_of_mem a hd₀)
    have := ih hrest
    simp only [Registry.detect] at this ⊢
    rw [List.cons_append, detectLoop_skip ep (rest ++ d :: l₂) a ha, this]
    simp

/-! Concrete fixtures used by the witnesses. -/

def drvNo : Driver := { name := "no", detect := fun _ => (false, none) }

def drvYes : Driver := { name := "yes", detect := fun _ => (true, none) }

def drvBoom : Driver := { name := "boom", detect := fun _ => (false, some (MMErr.driverFailure 7)) }

def epW : Endpoint := { address := "127.0.0.1:4028" }

theorem Registry.detect_first_match_witness :
    Registry.detect ⟨[drvNo, drvYes]⟩ epW = (Except.ok drvYes, [drvNo, drvYes]) ∧
    (Registry.detect ⟨[drvNo]⟩ epW).1 = Except.error MMErr.driverNotFound := by
  constructor
  · have := Registry.detect_first_match.1 [drvNo] [] drvYes epW
      (by intro d₀ h; rw [List.mem_singleton] at h; subst h; rfl) rfl
    simpa using this
  · exact Registry.detect_first_match.2 ⟨[drvNo]⟩ epW
      (by intro d₀ h; rw [List.mem_singleton] at h; subst h; rfl)

theorem Registry.detect_error_shortcircuit_witness :
    Registry.detect ⟨[drvNo, drvBoom, drvYes]⟩ epW =
      (Except.error (MMErr.driverFailure 7), [drvNo, drvBoom]) := by
  have := Registry.detect_error_shortcircuit [drvNo] [drvYes] drvBoom epW false
    (MMErr.driverFailure 7)
    (by intro d₀ h; rw [List.mem_singleton] at h; subst h; rfl) rfl
  simpa using this

/-- C5: a successful AddOrDetect maps id to exactly the record
{id, ep, driver, driver name} (the supplied driver, or the detected one when
none was supplied), replacing any existing entry and leaving every other
entry, the registry and the pool unchanged; when detection fails the error
is returned and the manager is completely unchanged. -/
theorem Manager.addOrDetect_spec :
    (∀ (m : Manager) (id : String) (ep : Endpoint) (drv : Driver),
      (m.addOrDetect id ep (some drv)).1 = none ∧
      ((m.addOrDetect id ep (some drv)).2).dev id = some ⟨id, ep, drv, drv.name⟩ ∧
      (∀ k, k ≠ id → ((m.addOrDetect id ep (some drv)).2).dev k = m.dev k) ∧
      ((m.addOrDetect id ep (some drv)).2).reg = m.reg ∧
      ((m.addOrDetect id ep (some drv)).2).pool = m.pool) ∧
    (∀ (m : Manager) (id : String) (ep : Endpoint) (drv : Driver),
      (m.reg.detect ep).1 = Except.ok drv →
      (m.addOrDetect id ep none).1 = none ∧
      ((m.addOrDetect id ep none).2).dev id = some ⟨id, ep, drv, drv.name⟩ ∧
      (∀ k, k ≠ id → ((m.addOrDetect id ep none).2).dev k = m.dev k) ∧
      ((m.addOrDetect id ep none).2).reg = m.reg ∧
      ((m.addOrDetect id ep none).2).pool = m.pool) ∧
    (∀ (m : Manager) (id : String) (ep : Endpoint) (e : MMErr),
      (m.reg.detect ep).1 = Except.error e →
      m.addOrDetect id ep none = (some e, m)) := by
  refine ⟨fun m id ep drv => ?_, fun m id ep drv h => ?_, fun m id ep e h => ?_⟩
  · refine ⟨rfl, by simp [Manager.addOrDetect], fun k hk => ?_, rfl, rfl⟩
    simp [Manager.addOrDetect, hk]
  · refine ⟨?_, ?_, fun k hk => ?_, ?_, ?_⟩
    · simp [Manager.addOrDetect, h]
    · simp [Manager.addOrDetect, h]
    · simp [Manager.addOrDetect, h, hk]
    · simp [Manager.addOrDetect, h]
    · simp [Manager.addOrDetect, h]
  · simp [Manager.addOrDetect, h]

def mockDriver : Driver := { name := "mock", detect := fun _ => (true, none) }

def mockDevice : Device := { id := "x", endpoint := epW, driver := mockDriver, driverName := "mock" }

def mgr0 : Manager :=
  { reg := ⟨[mockDriver]⟩, dev := fun _ => none,
    pool := { pools := [], maxIdle := 5, maxOpen := 10, idleTime := 300 } }

theorem Manager.addOrDetect_spec_witness :
    ((mgr0.addOrDetect "x" epW (some mockDriver)).2).dev "x" = some mockDevice ∧
    ((mgr0.addOrDetect "x" epW (some mockDriver)).2).dev "y" = mgr0.dev "y" ∧
    ((mgr0.addOrDetect "x" epW none).2).dev "x" = some mockDevice := by
  refine ⟨?_, ?_, ?_⟩
  · exact (Manager.addOrDetect_spec.1 mgr0 "x" epW mockDriver).2.1
  · exact (Manager.addOrDetect_spec.1 mgr0 "x" epW mockDriver).2.2.1 "y" (by decide)
  · exact (Manager.addOrDetect_spec.2.1 mgr0 "x" epW mockDriver rfl).2.1

/-- C1: WithSession on an unknown id returns NotFound without invoking the
callback and without touching the pool; on acquisition failure the
acquisition error is returned unchanged and the callback is not invoked; on
success the callback runs exactly once on the acquired session, the session
is returned to the pool exactly once, and the callback's result is returned
unchanged. -/
theorem Manager.withSession_spec :
    ∀ (m : Manager) (id : String) (fn : Nat → Option MMErr) (now : Int)
      (openErr : Option MMErr),
      (m.dev id = none →
        m.withSession id fn now openErr = (some MMErr.notFound, m, [])) ∧
      (∀ d, m.dev id = some d →
        (∀ e, (m.pool.getSession id d now openErr).1 = Except.error e →
          m.withSession id fn now openErr =
            (some e, { m with pool := (m.pool.getSession id d now openErr).2.1 }, [])) ∧
        (∀ sess, (m.pool.getSession id d now openErr).1 = Except.ok sess →
          m.withSession id fn now openErr =
            (fn sess,
              { m with pool :=
                  (((m.pool.getSession id d now openErr).2.1).returnSession id sess).1 },
              [sess]))) := by
  intro m id fn now openErr
  refine ⟨fun h => by simp [Manager.withSession, h],
    fun d hd => ⟨fun e he => ?_, fun sess hs => ?_⟩⟩
  · simp [Manager.withSession, hd, he]
  · simp [Manager.withSession, hd, hs]

def mgr1 : Manager :=
  { mgr0 with dev := fun k => if k = "x" then some mockDevice else none }

theorem Manager.withSession_spec_witness :
    mgr1.withSession "y" (fun _ => none) 0 none = (some MMErr.notFound, mgr1, []) ∧
    mgr1.withSession "x" (fun _ => some (MMErr.driverFailure 3)) 0 none =
      (some (MMErr.driverFailure 3),
        { mgr1 with pool :=
            (((mgr1.pool.getSession "x" mockDevice 0 none).2.1).returnSession "x" 0).1 },
        [0]) := by
  constructor
  · exact (Manager.withSession_spec mgr1 "y" (fun _ => none) 0 none).1 rfl
  · exact ((Manager.withSession_spec mgr1 "x" (fun _ => some (MMErr.driverFailure 3))
      0 none).2 mockDevice rfl).2 0 rfl

/-- C9: after Manager.Close, every session that was idle or active in any
device sub-pool has had Close invoked on it, and a Stats lookup (Go map
indexing, absent key yielding the zero value) reports zero active and zero
idle connections for every device id. -/
theorem Manager.close_spec :
    ∀ (m : Manager),
      (m.close).1 = none ∧
      (∀ kv ∈ m.pool.pools, ∀ s : Nat,
        (s ∈ kv.2.idle ∨ s ∈ kv.2.active) → s ∈ (m.close).2.2) ∧
      (∀ id, (statsLookup (((m.close).2.1).pool.stats) id).activeConnections = 0 ∧
        (statsLookup (((m.close).2.1).pool.stats) id).idleConnections = 0) := by
  intro m
  refine ⟨rfl, fun kv hkv s hs => ?_, fun id => ?_⟩
  · have hmem : s ∈ kv.2.closeAll.2 := by
      rcases hs with h | h
      · exact List.mem_append.mpr (Or.inl h)
      · exact List.mem_append.mpr (Or.inr ((Finset.mem_sort _).mpr h))
    have : kv.2.closeAll.2 ∈ m.pool.pools.map fun kv => kv.2.closeAll.2 :=
      List.mem_map.mpr ⟨kv, hkv, rfl⟩
    simp only [Manager.close, ConnectionPool.close]
    exact List.mem_flatten.mpr ⟨kv.2.closeAll.2, this, hmem⟩
  · simp [Manager.close, ConnectionPool.close, ConnectionPool.stats, statsLookup]

def dpW : DevicePool :=
  { device := mockDevice, idle := [3], active := {5},
    createdAt := fun _ => none, maxIdle := 5, maxOpen := 10, idleTime := 300,
    nextSess := 6 }

def mgrW : Manager :=
  { reg := ⟨[]⟩, dev := fun _ => none,
    pool := { pools := [("x", dpW)], maxIdle := 5, maxOpen := 10, idleTime := 300 } }

theorem Manager.close_spec_witness :
    3 ∈ (mgrW.close).2.2 ∧ 5 ∈ (mgrW.close).2.2 ∧
    (statsLookup (((mgrW.close).2.1).pool.stats) "x").activeConnections = 0 ∧
    (statsLookup (((mgrW.close).2.1).pool.stats) "x").idleConnections = 0 := by
  refine ⟨?_, ?_, (Manager.close_spec mgrW).2.2 "x"⟩
  · exact (Manager.close_spec mgrW).2.1 ("x", dpW) (by simp [mgrW]) 3
      (Or.inl (by simp [dpW]))
  · exact (Manager.close_spec mgrW).2.1 ("x", dpW) (by simp [mgrW]) 5
      (Or.inr (by simp [dpW]))

/-- cleanLoop computes a filter: the kept idle list holds exactly the
sessions retained by `expireKeep` (judged against the initial timestamp
map), in order, and the closed list holds exactly the rest. -/
theorem cleanLoop_spec (idleTime now : Int) :
    ∀ (l : List Nat) (ca : Nat → Option Int),
      (cleanLoop idleTime now l ca).1 = l.filter (expireKeep idleTime now ca) ∧
      (cleanLoop idleTime now l ca).2.2 =
        l.filter fun s => !expireKeep idleTime now ca s := by
  intro l
  induction l with
  | nil => intro ca; simp [cleanLoop]
  | cons sess rest ih =>
    intro ca
    cases hca : ca sess with
    | none =>
      have hk : expireKeep idleTime now ca sess = false := by
        simp [expireKeep, hca]
      simp [cleanLoop, hca, List.filter_cons, hk, (ih ca).1, (ih ca).2]
    | some c =>
      by_cases hlt : now - c < idleTime
      · have hk : expireKeep idleTime now ca sess = true := by
          simp [expireKeep, hca, hlt]
        simp [cleanLoop, hca, hlt, List.filter_cons, hk, (ih ca).1, (ih ca).2]
      · have hk : expireKeep idleTime now ca sess = false := by
          simp [expireKeep, hca, hlt]
        have hsame : expireKeep idleTime now (Function.update ca sess none) =
            expireKeep idleTime now ca := by
          funext s
          by_cases hs : s = sess
          · subst hs
            simp [expireKeep, Function.update_same, hca, hlt]
          · simp [expireKeep, Function.update_noteq hs]
        have h1 := (ih (Function.update ca sess none)).1
        have h2 := (ih (Function.update ca sess none)).2
        rw [hsame] at h1 h2
        simp [cleanLoop, hca, hlt, List.filter_cons, hk, h1, h2]

/-- C8: cleanExpired keeps in the idle list exactly the sessions with a
recorded creation time whose age now − createdAt is below idleTTL, in their
original order, and closes and removes every other idle session (a session
with no recorded creation time is closed as already expired); the active
set is untouched, evicted sessions are no longer in the idle list, and the
subsequent Stats idle count equals the number of kept sessions. -/
theorem DevicePool.cleanExpired_spec :
    ∀ (dp : DevicePool) (now : Int),
      ((dp.cleanExpired now).1).idle =
        dp.idle.filter (expireKeep dp.idleTime now dp.createdAt) ∧
      (dp.cleanExpired now).2 =
        (dp.idle.filter fun s => !expireKeep dp.idleTime now dp.createdAt s) ∧
      ((dp.cleanExpired now).1).active = dp.active ∧
      (∀ s ∈ (dp.cleanExpired now).2, s ∉ ((dp.cleanExpired now).1).idle) ∧
      ((dp.cleanExpired now).1).statsOf.idleConnections =
        (dp.idle.filter (expireKeep dp.idleTime now dp.createdAt)).length := by
  intro dp now
  have h := cleanLoop_spec dp.idleTime now dp.idle dp.createdAt
  refine ⟨?_, ?_, rfl, fun s hs hmem => ?_, ?_⟩
  · simpa [DevicePool.cleanExpired] using h.1
  · simpa [DevicePool.cleanExpired] using h.2
  · have h1 : expireKeep dp.idleTime now dp.createdAt s = true := by
      have : s ∈ dp.idle.filter (expireKeep dp.idleTime now dp.createdAt) := by
        simpa [DevicePool.cleanExpired, h.1] using hmem
      exact (List.mem_filter.mp this).2
    have h2 : (!expireKeep dp.idleTime now dp.createdAt s) = true := by
      have : s ∈ dp.idle.filter fun x => !expireKeep dp.idleTime now dp.createdAt x := by
        simpa [DevicePool.cleanExpired, h.2] using hs
      exact (List.mem_filter.mp this).2
    rw [h1] at h2
    exact Bool.noConfusion h2
  · simp [DevicePool.cleanExpired, DevicePool.statsOf, h.1]

def dpClean : DevicePool :=
  { device := mockDevice, idle := [1, 2, 4], active := ∅,
    createdAt := fun s => if s = 1 then some 200 else if s = 2 then some 50 else none,
    maxIdle := 5, maxOpen := 10, idleTime := 300, nextSess := 6 }

theorem DevicePool.cleanExpired_spec_witness :
    ((dpClean.cleanExpired 400).1).idle = [1] ∧
    (dpClean.cleanExpired 400).2 = [2, 4] ∧
    ((dpClean.cleanExpired 400).1).active = dpClean.active ∧
    (2 ∉ ((dpClean.cleanExpired 400).1).idle) ∧
    ((dpClean.cleanExpired 400).1).statsOf.idleConnections = 1 := by
  have h := DevicePool.cleanExpired_spec dpClean 400
  refine ⟨?_, ?_, h.2.2.1, ?_, ?_⟩
  · rw [h.1]; rfl
  · rw [h.2.1]; rfl
  · exact h.2.2.2.1 2 (by rw [h.2.1]; decide)
  · rw [h.2.2.2.2]; rfl

/-- cleanLoop only deletes timestamp entries, never writes one. -/
theorem cleanLoop_createdAt (idleTime now : Int) :
    ∀ (l : List Nat) (ca : Nat → Option Int) (s : Nat),
      (cleanLoop idleTime now l ca).2.1 s = ca s ∨
      (cleanLoop idleTime now l ca).2.1 s = none := by
  intro l
  induction l with
  | nil => intro ca s; left; rfl
  | cons sess rest ih =>
    intro ca s
    cases hca : ca sess with
    | none => simpa [cleanLoop, hca] using ih ca s
    | some c =>
      by_cases hlt : now - c < idleTime
      · simpa [cleanLoop, hca, hlt] using ih ca s
      · rcases ih (Function.update ca sess none) s with h | h
        · by_cases hs : s = sess
          · subst hs
            rw [Function.update_same] at h
            right
            simpa [cleanLoop, hca, hlt] using h
          · rw [Function.update_noteq hs] at h
            left
            simpa [cleanLoop, hca, hlt] using h
        · right
          simpa [cleanLoop, hca, hlt] using h

/-- C10: a session's creation timestamp is written exactly at the moment
Driver.Open creates it inside getSession (and only there): reuse from the
idle list leaves the timestamp map unchanged, a fresh Open writes the new
session's timestamp and no other, returning a session to a non-full idle
list leaves the map unchanged, cleanExpired never refreshes a timestamp
(it at most deletes entries), and cleanExpired evicts an idle session
exactly when the time since its recorded creation reaches idleTTL. -/
theorem DevicePool.createdAt_once :
    ∀ (dp : DevicePool) (now : Int) (openErr : Option MMErr) (sess : Nat),
      (dp.idle ≠ [] →
        ((dp.getSession now openErr).2.1).createdAt = dp.createdAt) ∧
      (dp.idle = [] → dp.active.card < dp.maxOpen →
        ((dp.getSession now none).2.1).createdAt dp.nextSess = some now ∧
        ∀ s, s ≠ dp.nextSess →
          ((dp.getSession now none).2.1).createdAt s = dp.createdAt s) ∧
      (dp.idle.length < dp.maxIdle →
        ((dp.returnSession sess).1).createdAt = dp.createdAt) ∧
      (∀ s2, ((dp.cleanExpired now).1).createdAt s2 = dp.createdAt s2 ∨
        ((dp.cleanExpired now).1).createdAt s2 = none) ∧
      (∀ c, dp.createdAt sess = some c →
        (sess ∈ (dp.cleanExpired now).2 ↔
          sess ∈ dp.idle ∧ dp.idleTime ≤ now - c)) := by
  intro dp now openErr sess
  refine ⟨fun h => ?_, fun h hcap => ?_, fun h => ?_,
    fun s2 => cleanLoop_createdAt dp.idleTime now dp.idle dp.createdAt s2,
    fun c hc => ?_⟩
  · simp [DevicePool.getSession, h]
  · have hcap' : ¬ dp.maxOpen ≤ dp.active.card := by omega
    constructor
    · simp [DevicePool.getSession, h, hcap', Function.update_same]
    · intro s hs
      simp [DevicePool.getSession, h, hcap', Function.update_noteq hs]
  · simp [DevicePool.returnSession, h]
  · have hcl := (cleanLoop_spec dp.idleTime now dp.idle dp.createdAt).2
    simp only [DevicePool.cleanExpired]
    rw [hcl, List.mem_filter, expireKeep, hc]
    constructor
    · rintro ⟨hmem, hkeep⟩
      refine ⟨hmem, ?_⟩
      by_contra hlt
      simp [show now - c < dp.idleTime by omega] at hkeep
    · rintro ⟨hmem, hge⟩
      refine ⟨hmem, ?_⟩
      simp [show ¬ (now - c < dp.idleTime) by omega]

def dpOpen : DevicePool :=
  { device := mockDevice, idle := [], active := ∅,
    createdAt := fun _ => none, maxIdle := 5, maxOpen := 10, idleTime := 300,
    nextSess := 6 }

theorem DevicePool.createdAt_once_witness :
    ((dpClean.getSession 500 none).2.1).createdAt = dpClean.createdAt ∧
    ((dpOpen.getSession 500 none).2.1).createdAt 6 = some 500 ∧
    ((dpClean.returnSession 4).1).createdAt = dpClean.createdAt ∧
    (((dpClean.cleanExpired 600).1).createdAt 1 = dpClean.createdAt 1 ∨
      ((dpClean.cleanExpired 600).1).createdAt 1 = none) ∧
    (1 ∈ (dpClean.cleanExpired 600).2 ↔ 1 ∈ dpClean.idle ∧ (300 : Int) ≤ 600 - 200) := by
  have h1 := (DevicePool.createdAt_once dpClean 500 none 0).1 (by decide)
  have h2 := (DevicePool.createdAt_once dpOpen 500 none 0).2.1 rfl (by decide)
  have h3 := (DevicePool.createdAt_once dpClean 500 none 4).2.2.1 (by decide)
  have h4 := (DevicePool.createdAt_once dpClean 600 none 1).2.2.2.1 1
  have h5 := (DevicePool.createdAt_once dpClean 600 none 1).2.2.2.2 200 rfl
  exact ⟨h1, h2.1, h3, h4, h5⟩

/-! Preservation of the sub-pool invariant under each pool operation. -/

theorem getSession_inv (dp : DevicePool) (now : Int) (openErr : Option MMErr)
    (hinv : PoolInv dp) : PoolInv (dp.getSession now openErr).2.1 := by
  obtain ⟨hnd, hdisj, hsum, hidle⟩ := hinv
  unfold DevicePool.getSession
  split
  case isTrue h =>
    have hkey : dp.idle.dropLast ++ [dp.idle.getLast h] = dp.idle :=
      List.dropLast_append_getLast h
    have hnd' : (dp.idle.dropLast ++ [dp.idle.getLast h]).Nodup := by
      rw [hkey]; exact hnd
    rw [List.nodup_append] at hnd'
    obtain ⟨hndDL, _, hdisjDL⟩ := hnd'
    have hlast_mem : dp.idle.getLast h ∈ dp.idle := List.getLast_mem h
    have hlast_not_active : dp.idle.getLast h ∉ dp.active := hdisj _ hlast_mem
    have hpos : 0 < dp.idle.length := List.length_pos.mpr h
    refine ⟨hndDL, ?_, ?_, ?_⟩
    · intro s hs
      have hs_idle : s ∈ dp.idle := by
        rw [← hkey]; exact List.mem_append.mpr (Or.inl hs)
      have hne : s ≠ dp.idle.getLast h := fun heq =>
        hdisjDL hs (heq ▸ List.mem_singleton.mpr rfl)
      rw [Finset.mem_insert]
      rintro (heq | hmem)
      · exact hne heq
      · exact hdisj s hs_idle hmem
    · simp only [Finset.card_insert_of_not_mem hlast_not_active, List.length_dropLast]
      omega
    · simp only [List.length_dropLast]
      omega
  case isFalse h =>
    have hnil : dp.idle = [] := by
      by_contra hne
      exact h hne
    split
    case isTrue hcap => exact ⟨hnd, hdisj, hsum, hidle⟩
    case isFalse hcap =>
      cases openErr with
      | some e => exact ⟨hnd, hdisj, hsum, hidle⟩
      | none =>
        have hcard : dp.active.card < dp.maxOpen := by omega
        refine ⟨by rw [hnil]; exact List.nodup_nil, ?_, ?_, ?_⟩
        · intro s hs
          rw [hnil] at hs
          exact absurd hs (List.not_mem_nil s)
        · have hle := Finset.card_insert_le dp.nextSess dp.active
          rw [hnil] at hsum ⊢
          simp only [List.length_nil] at hsum ⊢
          omega
        · rw [hnil]
          simp

theorem returnSession_inv (dp : DevicePool) (sess : Nat) (hmem : sess ∈ dp.active)
    (hinv : PoolInv dp) : PoolInv (dp.returnSession sess).1 := by
  obtain ⟨hnd, hdisj, hsum, hidle⟩ := hinv
  have hcard : 0 < dp.active.card := Finset.card_pos.mpr ⟨sess, hmem⟩
  have hsess_not_idle : sess ∉ dp.idle := fun hs => hdisj sess hs hmem
  simp only [DevicePool.returnSession]
  split
  case isTrue hlt =>
    refine ⟨?_, ?_, ?_, ?_⟩
    · rw [List.nodup_append]
      exact ⟨hnd, List.nodup_singleton _,
        fun a ha hb => hsess_not_idle (List.mem_singleton.mp hb ▸ ha)⟩
    · intro s hs
      rcases List.mem_append.mp hs with h1 | h1
      · exact fun hm => hdisj s h1 (Finset.mem_of_mem_erase hm)
      · rw [List.mem_singleton.mp h1]
        exact Finset.not_mem_erase sess dp.active
    · simp only [Finset.card_erase_of_mem hmem, List.length_append,
        List.length_singleton]
      omega
    · simp only [List.length_append, List.length_singleton]
      omega
  case isFalse hge =>
    refine ⟨hnd, ?_, ?_, hidle⟩
    · intro s hs
      exact fun hm => hdisj s hs (Finset.mem_of_mem_erase hm)
    · simp only [Finset.card_erase_of_mem hmem]
      omega

theorem cleanExpired_inv (dp : DevicePool) (now : Int) (hinv : PoolInv dp) :
    PoolInv (dp.cleanExpired now).1 := by
  obtain ⟨hnd, hdisj, hsum, hidle⟩ := hinv
  have h := (cleanLoop_spec dp.idleTime now dp.idle dp.createdAt).1
  have hlen := List.length_filter_le (expireKeep dp.idleTime now dp.createdAt) dp.idle
  refine ⟨?_, ?_, ?_, ?_⟩
  · simp only [DevicePool.cleanExpired, h]
    exact hnd.filter _
  · intro s hs
    simp only [DevicePool.cleanExpired, h] at hs
    exact hdisj s (List.mem_filter.mp hs).1
  · simp only [DevicePool.cleanExpired, h]
    omega
  · simp only [DevicePool.cleanExpired, h]
    omega

theorem closeAll_inv (dp : DevicePool) (_hinv : PoolInv dp) : PoolInv dp.closeAll.1 := by
  refine ⟨List.nodup_nil, ?_, ?_, ?_⟩ <;>
    simp [DevicePool.closeAll]

theorem poolStep_preserves (dp dp' : DevicePool) (hstep : PoolStep dp dp')
    (hinv : PoolInv dp) : PoolInv dp' := by
  cases hstep with
  | get now openErr => exact getSession_inv _ now openErr hinv
  | ret sess h => exact returnSession_inv _ sess h hinv
  | clean now => exact cleanExpired_inv _ now hinv
  | close => exact closeAll_inv _ hinv

/-- C2: in every sub-pool state reachable by any sequence of GetSession,
ReturnSession (of checked-out sessions), cleanExpired and closeAll, the
idle list is bounded by maxIdle, the active set is bounded by maxOpen, and
no session is simultaneously in the idle list and the active set. -/
theorem DevicePool.reachable_inv
    (device : Device) (maxIdle maxOpen : Nat) (idleTime : Int) (dp : DevicePool)
    (hreach : PoolReachable device maxIdle maxOpen idleTime dp) :
    dp.idle.length ≤ dp.maxIdle ∧ dp.active.card ≤ dp.maxOpen ∧
      ∀ s ∈ dp.idle, s ∉ dp.active := by
  have hinv : PoolInv dp := by
    induction hreach with
    | refl =>
      refine ⟨List.nodup_nil, ?_, ?_, ?_⟩ <;> simp [DevicePool.init, PoolInv]
    | tail hsteps hstep ih => exact poolStep_preserves _ _ hstep ih
  obtain ⟨hnd, hdisj, hsum, hidle⟩ := hinv
  exact ⟨hidle, by omega, hdisj⟩

theorem DevicePool.reachable_inv_witness :
    (DevicePool.init mockDevice 5 10 300).idle.length ≤
        (DevicePool.init mockDevice 5 10 300).maxIdle ∧
      (DevicePool.init mockDevice 5 10 300).active.card ≤
        (DevicePool.init mockDevice 5 10 300).maxOpen ∧
      ∀ s ∈ (DevicePool.init mockDevice 5 10 300).idle,
        s ∉ (DevicePool.init mockDevice 5 10 300).active :=
  DevicePool.reachable_inv mockDevice 5 10 300 _ Relation.ReflTransGen.refl

/-! Branch equations for getSession and returnSession. -/

theorem getSession_pop (dp : DevicePool) (now : Int) (openErr : Option MMErr)
    (h : dp.idle ≠ []) :
    dp.getSession now openErr =
      (Except.ok (dp.idle.getLast h),
        { dp with idle := dp.idle.dropLast,
                  active := insert (dp.idle.getLast h) dp.active }, 0) := by
  simp only [DevicePool.getSession]
  rw [dif_pos h]

theorem getSession_exhausted (dp : DevicePool) (now : Int) (openErr : Option MMErr)
    (h : dp.idle = []) (hcap : dp.maxOpen ≤ dp.active.card) :
    dp.getSession now openErr =
      (Except.error (MMErr.deviceError "connection pool exhausted"
        "too many active connections"), dp, 0) := by
  simp only [DevicePool.getSession]
  rw [dif_neg (by simp [h]), if_pos hcap]

theorem getSession_openFail (dp : DevicePool) (now : Int) (e : MMErr)
    (h : dp.idle = []) (hcap : ¬ dp.maxOpen ≤ dp.active.card) :
    dp.getSession now (some e) = (Except.error e, dp, 1) := by
  simp only [DevicePool.getSession]
  rw [dif_neg (by simp [h]), if_neg hcap]

theorem getSession_open (dp : DevicePool) (now : Int)
    (h : dp.idle = []) (hcap : dp.active.card < dp.maxOpen) :
    dp.getSession now none =
      (Except.ok dp.nextSess,
        { dp with active := insert dp.nextSess dp.active,
                  createdAt := Function.update dp.createdAt dp.nextSess (some now),
                  nextSess := dp.nextSess + 1 }, 1) := by
  simp only [DevicePool.getSession]
  rw [dif_neg (by simp [h]), if_neg (by omega)]

theorem returnSession_push (dp : DevicePool) (sess : Nat)
    (h : dp.idle.length < dp.maxIdle) :
    dp.returnSession sess =
      ({ dp with active := dp.active.erase sess, idle := dp.idle ++ [sess] }, []) := by
  simp only [DevicePool.returnSession]
  rw [if_pos h]

theorem getLast_push (l : List Nat) (a : Nat) (h : l ++ [a] ≠ []) :
    (l ++ [a]).getLast h = a := by
  simp [List.getLast_append]

/-- Helper: returning a session to a sub-pool with idle room and then
getting a session again yields the very same session without any
Driver.Open call. -/
theorem return_then_get (dp : DevicePool) (sess : Nat) (now : Int) (openErr : Option MMErr)
    (h : dp.idle.length < dp.maxIdle) :
    (((dp.returnSession sess).1).getSession now openErr).1 = Except.ok sess ∧
    (((dp.returnSession sess).1).getSession now openErr).2.2 = 0 := by
  have h1 : (dp.returnSession sess).1 =
      { dp with active := dp.active.erase sess, idle := dp.idle ++ [sess] } := by
    rw [returnSession_push dp sess h]
  rw [h1]
  have hne : ({ dp with active := dp.active.erase sess, idle := dp.idle ++ [sess] } : DevicePool).idle ≠ [] := by
    simp
  rw [getSession_pop _ now openErr hne]
  refine ⟨?_, rfl⟩
  simp [getLast_push]

/-- C6: when the idle list is non-empty GetSession pops and returns its
most-recently-pushed entry (LIFO); and in a pool state respecting the idle
bound, with maxIdle ≥ 1, GetSession yielding s, then ReturnSession(s), then
GetSession again returns the identical session s with no Driver.Open
call. -/
theorem DevicePool.lifo_reuse :
    ∀ (dp : DevicePool) (now now2 : Int) (openErr openErr2 : Option MMErr) (s : Nat),
      (∀ (h : dp.idle ≠ []),
        dp.getSession now openErr =
          (Except.ok (dp.idle.getLast h),
            { dp with idle := dp.idle.dropLast,
                      active := insert (dp.idle.getLast h) dp.active }, 0)) ∧
      (dp.idle.length ≤ dp.maxIdle → 1 ≤ dp.maxIdle →
        (dp.getSession now openErr).1 = Except.ok s →
        ((((dp.getSession now openErr).2.1).returnSession s).1.getSession
            now2 openErr2).1 = Except.ok s ∧
          ((((dp.getSession now openErr).2.1).returnSession s).1.getSession
            now2 openErr2).2.2 = 0) := by
  intro dp now now2 openErr openErr2 s
  refine ⟨fun h => getSession_pop dp now openErr h, fun hidle hmi hok => ?_⟩
  by_cases hnil : dp.idle = []
  · by_cases hcap : dp.maxOpen ≤ dp.active.card
    · rw [getSession_exhausted dp now openErr hnil hcap] at hok
      simp at hok
    · cases openErr with
      | some e =>
        rw [getSession_openFail dp now e hnil hcap] at hok
        simp at hok
      | none =>
        have heq := getSession_open dp now hnil (by omega)
        have hs : dp.nextSess = s := by
          rw [heq] at hok
          simpa using hok
        have h21 : (dp.getSession now none).2.1 =
            { dp with active := insert s dp.active,
                      createdAt := Function.update dp.createdAt s (some now),
                      nextSess := s + 1 } := by
          rw [heq, hs]
        rw [h21]
        exact return_then_get _ s now2 openErr2 (by simp [hnil]; omega)
  · have heq := getSession_pop dp now openErr hnil
    have hs : dp.idle.getLast hnil = s := by
      rw [heq] at hok
      simpa using hok
    have hpos : 0 < dp.idle.length := List.length_pos.mpr hnil
    have h21 : (dp.getSession now openErr).2.1 =
        { dp with idle := dp.idle.dropLast, active := insert s dp.active } := by
      rw [heq, hs]
    rw [h21]
    exact return_then_get _ s now2 openErr2
      (by simp only [List.length_dropLast]; omega)

theorem DevicePool.lifo_reuse_witness :
    dpW.getSession 0 none =
      (Except.ok (dpW.idle.getLast (by decide)),
        { dpW with idle := dpW.idle.dropLast,
                   active := insert (dpW.idle.getLast (by decide)) dpW.active }, 0) ∧
    ((((dpW.getSession 0 none).2.1).returnSession 3).1.getSession 1 none).1 =
        Except.ok 3 ∧
    ((((dpW.getSession 0 none).2.1).returnSession 3).1.getSession 1 none).2.2 = 0 := by
  refine ⟨(DevicePool.lifo_reuse dpW 0 1 none none 3).1 (by decide), ?_⟩
  exact (DevicePool.lifo_reuse dpW 0 1 none none 3).2 (by decide) (by decide) rfl

/-- C7: in a pool state respecting the active bound, with an empty idle
list and len(active) ≥ maxOpen, GetSession fails immediately with the
pool-exhausted DeviceError, leaves the pool unchanged and performs no
Driver.Open call; after some active session is returned, a subsequent
GetSession (with Open succeeding) succeeds. -/
theorem DevicePool.exhaustion_failfast :
    ∀ (dp : DevicePool) (now now2 : Int) (openErr : Option MMErr) (sess : Nat),
      dp.active.card ≤ dp.maxOpen → dp.idle = [] →
      dp.maxOpen ≤ dp.active.card → sess ∈ dp.active →
      (dp.getSession now openErr =
        (Except.error (MMErr.deviceError "connection pool exhausted"
          "too many active connections"), dp, 0)) ∧
      ∃ s2, (((dp.returnSession sess).1).getSession now2 none).1 = Except.ok s2 := by
  intro dp now now2 openErr sess hbound hnil hcap hmem
  refine ⟨getSession_exhausted dp now openErr hnil hcap, ?_⟩
  by_cases hmi : 0 < dp.maxIdle
  · exact ⟨sess, (return_then_get dp sess now2 none (by rw [hnil]; simpa using hmi)).1⟩
  · have hcard : 0 < dp.active.card := Finset.card_pos.mpr ⟨sess, hmem⟩
    have hlen0 : dp.idle.length = 0 := by rw [hnil]; rfl
    have hretn : (dp.returnSession sess).1 =
        { dp with active := dp.active.erase sess,
                  createdAt := Function.update dp.createdAt sess none } := by
      simp only [DevicePool.returnSession]
      rw [if_neg (by omega)]
    rw [hretn]
    refine ⟨dp.nextSess, ?_⟩
    have hopen := getSession_open
      { dp with active := dp.active.erase sess,
                createdAt := Function.update dp.createdAt sess none } now2
      (by simpa using hnil)
      (by simp only [Finset.card_erase_of_mem hmem]; omega)
    rw [hopen]

def dpFull : DevicePool :=
  { device := mockDevice, idle := [], active := {5},
    createdAt := fun _ => none, maxIdle := 5, maxOpen := 1, idleTime := 300,
    nextSess := 6 }

theorem DevicePool.exhaustion_failfast_witness :
    (dpFull.getSession 0 none =
      (Except.error (MMErr.deviceError "connection pool exhausted"
        "too many active connections"), dpFull, 0)) ∧
    ∃ s2, (((dpFull.returnSession 5).1).getSession 1 none).1 = Except.ok s2 :=
  DevicePool.exhaustion_failfast dpFull 0 1 none 5
    (by decide) rfl (by decide) (by decide)

end MultiMiner
